import Mathlib

/-
Verification of the chunked batch-processing engine implemented in
app/management/commands/ticket.py (with the Ticket model of app/models.py)
against its natural-language specification.

Modelling conventions:
  - A Ticket row is a pair of its immutable primary key and its token
    (uuid values are modelled as natural numbers).
  - The database table is a list of rows ordered by primary key
    (Meta.ordering = [id]); queries and bulk writes are pure list
    operations translated from the django operations the code calls.
  - Wall-clock readings are abstract inputs: each strategy takes a
    function giving the elapsed time of every window, as a rational
    number (python float arithmetic is modelled exactly over the
    rationals).
  - uuid4 regeneration is an abstract fresh-token source g applied
    independently to each record, per the Mutator contract.
  - Exceptions and operator interrupts are modelled as an optional
    injection point: a fault at page p makes the window loop abort while
    that page is being processed.
  - The checkpoint file ./error.log is an Option String, none when the
    file does not exist.
-/

/-- A row of the Ticket table (app/models.py): an immutable, unique,
auto-assigned primary key and a mutable token field with no uniqueness
constraint. Rows are ordered by the primary key. -/
structure Ticket where
  id : Nat
  token : Nat
deriving DecidableEq

/-- Whitespace stripped by python int() around a decimal string. -/
def isPySpace (c : Char) : Bool :=
  c = ' ' || c = '\t' || c = '\n' || c = '\r' || c = '\x0b' || c = '\x0c'

/-- Value of one decimal digit, none for any other character. -/
def digitVal? (c : Char) : Option Nat :=
  if '0' ≤ c ∧ c ≤ '9' then some (c.toNat - '0'.toNat) else none

/-- Accumulates the value of a digit string; none on a non-digit. -/
def digitsValAux : List Char → Nat → Option Nat
  | [], acc => some acc
  | c :: cs, acc =>
    match digitVal? c with
    | none => none
    | some d => digitsValAux cs (acc * 10 + d)

/-- Value of a nonempty all-digit string, none otherwise. -/
def digitsVal? : List Char → Option Nat
  | [] => none
  | l => digitsValAux l 0

/-- Python int(s) on a decimal string: surrounding whitespace is stripped,
one optional sign is allowed, then one or more decimal digits are
required; anything else raises ValueError, modelled as none. (Digit-group
underscores accepted by python are not modelled; no claim involves them.) -/
def pyInt? (s : String) : Option Int :=
  match ((s.data.dropWhile isPySpace).reverse.dropWhile isPySpace).reverse with
  | '-' :: rest => (digitsVal? rest).map (fun n => -(n : Int))
  | '+' :: rest => (digitsVal? rest).map (fun n => (n : Int))
  | l => (digitsVal? l).map (fun n => (n : Int))

/-- State of the checkpoint file ./error.log: none when absent. -/
abbrev CkptFile := Option String

/-- Checkpoint value that the load operation of the Checkpoint Store
observes in a file state: none when the file is absent or its contents do
not parse as an integer. -/
def loadedCheckpoint (fs : CkptFile) : Option Int :=
  match fs with
  | none => none
  | some s => pyInt? s

/-- Restart block at the top of regenerate_tokens_v3 (ticket.py:191-202):
reads ./error.log and parses its contents as current_page, then empties
the file; if the file is missing or the parse raises, the bare except
leaves current_page = 1 and the file untouched. Returns the pair of
current_page and the new file state. -/
def loadCheckpoint (fs : CkptFile) : Int × CkptFile :=
  match fs with
  | none => (1, none)
  | some s =>
    match pyInt? s with
    | none => (1, some s)
    | some n => (n, some "")

/-- Page count of django Paginator (default orphans = 0 and
allow_empty_first_page = True): the ceiling of count / per_page, except
that an empty object list still has one empty page. -/
def numPages (count per_page : Nat) : Nat :=
  if count = 0 then 1 else (count + per_page - 1) / per_page

/-- Object list of the 1-based page i of a django Paginator: the slice of
the ordered queryset from (i-1)*per_page to i*per_page. -/
def pageObjects (store : List Ticket) (per_page i : Nat) : List Ticket :=
  (store.drop ((i - 1) * per_page)).take per_page

/-- Ceiling division on naturals. -/
def ceilDiv (n w : Nat) : Nat := (n + w - 1) / w

/-- The Mutator: regenerate the token of one record (t.token = uuid4()),
with g the abstract fresh-token source. The primary key is untouched. -/
def regenToken (g : Nat → Nat) (t : Ticket) : Ticket := { t with token := g t.id }

/-- Ticket.objects.bulk_update(chunk, [token]): every table row whose
primary key occurs in the chunk receives the token of the chunk row with
that key; all other rows, all keys and the row order are untouched. -/
def bulk_update (store chunk : List Ticket) : List Ticket :=
  store.map fun t =>
    match chunk.find? (fun c => c.id == t.id) with
    | some c => { t with token := c.token }
    | none => t

/-- One printed progress report: the percent shown, the raw
estimated_remain_time computed for the window, and the
display_remain_time actually shown (the running minimum). -/
structure ProgressLine where
  percent : ℚ
  rawEst : ℚ
  display : ℚ
deriving DecidableEq

/-- Raw estimate of regenerate_tokens_v3 (ticket.py:225):
estimated_remain_time = (total_pages - i + 1) * took, for the just
completed 1-based page i. -/
def estimateV3 (total_pages i : Nat) (took : ℚ) : ℚ :=
  ((total_pages : ℚ) - (i : ℚ) + 1) * took

/-- Raw estimate of insert_tickets_v2 (ticket.py:107):
estimated_remain_time = (split_parts - i) * took, for the just completed
0-based round i. -/
def estimateInsertV2 (split_parts i : Nat) (took : ℚ) : ℚ :=
  ((split_parts : ℚ) - (i : ℚ)) * took

/-- Raw estimate of regenerate_tokens_v2 (ticket.py:160):
estimated_remain_time = (total - i) / chunk_size * took, for the flush
whose last record has 0-based global index i. -/
def estimateRegenV2 (total i chunk_size : Nat) (took : ℚ) : ℚ :=
  ((total : ℚ) - (i : ℚ)) / (chunk_size : ℚ) * took

/-- Smoothing of the displayed remaining time (ticket.py:109-111, 162-164
and 227-229): the display is replaced only when the new raw estimate is
strictly smaller, so the shown value is a running minimum. -/
def updateDisplay (display est : ℚ) : ℚ :=
  if est < display then est else display

/-- Python range(a, b) as a list of integers. -/
def intRange (a b : Int) : List Int :=
  (List.range (b - a).toNat).map fun (k : Nat) => a + (k : Int)

/-- Message of the django EmptyPage exception raised by paginator.page
for a page number below 1. -/
def emptyPageMsg : String := "That page number is less than 1"

/-- Mutable state of the page loop of regenerate_tokens_v3: the table,
display_remain_time, and the windows fetched and progress lines printed
so far (the latter two are recorded for the statements below; the code
prints each line and discards it). -/
structure V3Loop where
  store : List Ticket
  display : ℚ
  windows : List (List Ticket)
  progress : List ProgressLine
deriving DecidableEq

/-- Body of one iteration of the page loop of regenerate_tokens_v3
(ticket.py:214-241) for the 1-based page i: fetch the page, regenerate
each token, bulk_update the chunk, then update the estimate and print a
progress line. -/
def v3Step (per_page total_pages : Nat) (g : Nat → Nat) (elapsed : Nat → ℚ)
    (st : V3Loop) (i : Nat) : V3Loop :=
  let objs := pageObjects st.store per_page i
  let chunk := objs.map (regenToken g)
  let took := elapsed i
  let est := estimateV3 total_pages i took
  let display1 := updateDisplay st.display est
  { store := bulk_update st.store chunk
    display := display1
    windows := st.windows ++ [objs]
    progress := st.progress ++
      [⟨(i : ℚ) / (total_pages : ℚ) * 100, est, display1⟩] }

/-- Page loop of regenerate_tokens_v3 inside its try block
(ticket.py:204-241). current_page is set to i at the top of each
iteration; fetching a page number below 1 raises django EmptyPage, and a
fault at page p models any exception or operator interrupt occurring
while page p is being processed (its bulk write then does not land).
Returns the loop state together with some (p, msg) when an exception with
message msg escaped the loop while current_page = p. -/
def v3Loop (per_page total_pages : Nat) (g : Nat → Nat) (elapsed : Nat → ℚ)
    (fault : Option (Int × String)) :
    List Int → V3Loop → V3Loop × Option (Int × String)
  | [], st => (st, none)
  | i :: rest, st =>
    if i < 1 then (st, some (i, emptyPageMsg))
    else
      match fault with
      | some f =>
        if f.1 = i then (st, some f)
        else v3Loop per_page total_pages g elapsed (some f) rest
          (v3Step per_page total_pages g elapsed st i.toNat)
      | none => v3Loop per_page total_pages g elapsed none rest
          (v3Step per_page total_pages g elapsed st i.toNat)

/-- Outcome of a run of the Run Controller. -/
inductive RunOutcome
  | completed
  | interrupted
deriving DecidableEq

/-- Observable result of one run of regenerate_tokens_v3: the page the
loop started from, the final table, the final checkpoint file state, the
windows fetched, the progress lines printed, the error text written by
the except clause (none on a clean run), and the outcome. -/
structure V3Result where
  startPage : Int
  store : List Ticket
  file : CkptFile
  windows : List (List Ticket)
  progress : List ProgressLine
  errorMsg : Option String
  outcome : RunOutcome
deriving DecidableEq

/-- Assembly of the result of regenerate_tokens_v3 from the loop output:
a clean loop exit leaves the file as the restart block left it, while the
except clause (ticket.py:243-247) prints str(e) and overwrites the file
with str(current_page). -/
def finishV3 (startPage : Int) (fs1 : CkptFile)
    (out : V3Loop × Option (Int × String)) : V3Result :=
  match out with
  | (st, none) =>
    ⟨startPage, st.store, fs1, st.windows, st.progress, none, .completed⟩
  | (st, some f) =>
    ⟨startPage, st.store, some (toString f.1), st.windows, st.progress,
      some f.2, .interrupted⟩

/-- regenerate_tokens_v3 (ticket.py:183-247), the paginated chunked
update strategy with resume: consume the checkpoint, paginate the table
(the source fixes per_page = 1000), run the page loop from current_page
to total_pages, and catch every Exception and KeyboardInterrupt in the
except clause. The function always returns: no exception propagates out
of it. -/
def regenerate_tokens_v3 (per_page : Nat) (store : List Ticket)
    (fs : CkptFile) (g : Nat → Nat) (elapsed : Nat → ℚ)
    (fault : Option (Int × String)) : V3Result :=
  let lc := loadCheckpoint fs
  let total_pages := numPages store.length per_page
  finishV3 lc.1 lc.2
    (v3Loop per_page total_pages g elapsed fault
      (intRange lc.1 ((total_pages : Int) + 1))
      ⟨store, 999999, [], []⟩)

/-- Django management command termination: the process exits 0 when
handle returns normally and nonzero when an exception propagates out of
handle (BaseCommand prints the error and calls sys.exit(1)). -/
def exitStatus {α : Type} (r : Except String α) : Nat :=
  match r with
  | .ok _ => 0
  | .error _ => 1

/-- regenerate_tokens_v3 as handle observes it: its except clause catches
every Exception and KeyboardInterrupt raised in the window loop, so the
call always returns a value and never lets an exception escape into
handle. -/
def regenerate_tokens_v3_call (per_page : Nat) (store : List Ticket)
    (fs : CkptFile) (g : Nat → Nat) (elapsed : Nat → ℚ)
    (fault : Option (Int × String)) : Except String V3Result :=
  .ok (regenerate_tokens_v3 per_page store fs g elapsed fault)

/-- handle (ticket.py:52-78) for the regenerate3 option: runs the
strategy (handle itself catches nothing) and the process exits with
status 0 whenever the strategy call returns. Yields the exit status and
the strategy result handle obtained. -/
def handle_r3 (per_page : Nat) (store : List Ticket) (fs : CkptFile)
    (g : Nat → Nat) (elapsed : Nat → ℚ) (fault : Option (Int × String)) :
    Nat × Option V3Result :=
  match regenerate_tokens_v3_call per_page store fs g elapsed fault with
  | .ok r => (exitStatus (.ok r), some r)
  | .error e => (exitStatus (Except.error (α := V3Result) e), none)

/-- Mutable state of the cursor loop of regenerate_tokens_v2: the table,
display_remain_time, the chunk being accumulated, and the windows flushed
and progress lines printed so far. -/
structure V2Loop where
  store : List Ticket
  display : ℚ
  chunk : List Ticket
  windows : List (List Ticket)
  progress : List ProgressLine
deriving DecidableEq

/-- Cursor loop of regenerate_tokens_v2 (ticket.py:146-180): enumerate
the records of the iterator with the 0-based counter i, regenerate each
token into the chunk, and on every chunk_size-th record bulk_update the
chunk, update the estimate and print a progress line; a leftover partial
chunk is flushed after the loop without a progress line. elapsed gives
the time of each chunk (the timer restarts when i mod chunk_size = 0). -/
def regenV2Go (chunk_size total : Nat) (g : Nat → Nat) (elapsed : Nat → ℚ) :
    List Ticket → Nat → V2Loop → V2Loop
  | [], _, st =>
    if st.chunk = [] then st
    else
      { st with
        store := bulk_update st.store st.chunk
        chunk := []
        windows := st.windows ++ [st.chunk] }
  | t :: rest, i, st =>
    let chunk1 := st.chunk ++ [regenToken g t]
    if (i + 1) % chunk_size = 0 then
      let took := elapsed (i / chunk_size)
      let est := estimateRegenV2 total i chunk_size took
      let display1 := updateDisplay st.display est
      regenV2Go chunk_size total g elapsed rest (i + 1)
        { store := bulk_update st.store chunk1
          display := display1
          chunk := []
          windows := st.windows ++ [chunk1]
          progress := st.progress ++
            [⟨((i : ℚ) + 1) / (total : ℚ) * 100, est, display1⟩] }
    else
      regenV2Go chunk_size total g elapsed rest (i + 1) { st with chunk := chunk1 }

/-- Observable result of one run of regenerate_tokens_v2. -/
structure V2Result where
  store : List Ticket
  windows : List (List Ticket)
  progress : List ProgressLine
deriving DecidableEq

/-- regenerate_tokens_v2 (ticket.py:139-180), the cursor-based chunked
update strategy: total = Ticket.objects.count(), then the cursor loop
over the full ordered record set (the source fixes chunk_size = 1000). -/
def regenerate_tokens_v2 (chunk_size : Nat) (store : List Ticket)
    (g : Nat → Nat) (elapsed : Nat → ℚ) : V2Result :=
  let fin := regenV2Go chunk_size store.length g elapsed store 0
    ⟨store, 999999, [], [], []⟩
  ⟨fin.store, fin.windows, fin.progress⟩

/-- regenerate_tokens (ticket.py:125-133), the full-materialization
update strategy: fetch every row, regenerate every token in memory, and
issue one bulk_update of the whole set. -/
def regenerate_tokens (store : List Ticket) (g : Nat → Nat) : List Ticket :=
  bulk_update store (store.map (regenToken g))

/-- A batch of freshly constructed Ticket() rows as bulk_create persists
them: the database assigns consecutive primary keys after the current
maximal one, and each default token is a fresh uuid4 (g applied to a
global creation counter). -/
def insChunk (g : Nat → Nat) (base round size : Nat) : List Ticket :=
  (List.range size).map fun k => ⟨base + k + 1, g (round * size + k)⟩

/-- insert_tickets (ticket.py:86-91), the naive insert strategy: one
list of 1000000 new rows, one bulk_create. -/
def insert_tickets (store : List Ticket) (g : Nat → Nat) : List Ticket :=
  store ++ insChunk g store.length 0 1000000

/-- Mutable state of the loop of insert_tickets_v2. -/
structure InsLoop where
  store : List Ticket
  display : ℚ
  progress : List ProgressLine
deriving DecidableEq

/-- Round loop of insert_tickets_v2 (ticket.py:98-123): for each round i,
bulk_create a fresh batch of chunk rows, then update the estimate and
print a progress line. -/
def insLoopGo (split_parts chunk : Nat) (g : Nat → Nat) (elapsed : Nat → ℚ) :
    List Nat → InsLoop → InsLoop
  | [], st => st
  | i :: rest, st =>
    let took := elapsed i
    let est := estimateInsertV2 split_parts i took
    let display1 := updateDisplay st.display est
    insLoopGo split_parts chunk g elapsed rest
      { store := st.store ++ insChunk g st.store.length i chunk
        display := display1
        progress := st.progress ++
          [⟨((i : ℚ) + 1) / (split_parts : ℚ) * 100, est, display1⟩] }

/-- insert_tickets_v2 (ticket.py:93-123), the chunked insert strategy:
1000 rounds, each bulk_create of 1000 fresh rows, with progress
reporting. -/
def insert_tickets_v2 (store : List Ticket) (g : Nat → Nat)
    (elapsed : Nat → ℚ) : InsLoop :=
  insLoopGo 1000 1000 g elapsed (List.range 1000) ⟨store, 999999, []⟩

/-- Primary keys of a list of rows, in order. -/
def idsOf (l : List Ticket) : List Nat := l.map Ticket.id

/-- Primary keys of each window of a list of windows. -/
def windowIds (ws : List (List Ticket)) : List (List Nat) := ws.map idsOf

/-- Slice of a key list corresponding to the 1-based page i of width w. -/
def idSlice (l : List Nat) (w i : Nat) : List Nat :=
  (l.drop ((i - 1) * w)).take w

/-- Grouping of a list into consecutive chunks of w elements, the last
chunk possibly shorter. -/
def chunksOf {α : Type} (w : Nat) (l : List α) : List (List α) :=
  if h : l.length = 0 ∨ w = 0 then []
  else l.take w :: chunksOf w (l.drop w)
termination_by l.length
decreasing_by
  simp only [List.length_drop]
  omega

/-- Invariant of the progress display: the printed display values are
non-increasing and the current display state is below all of them. -/
def DispInv (d : ℚ) (ls : List ProgressLine) : Prop :=
  List.Chain' (fun a b => b ≤ a) (ls.map ProgressLine.display) ∧
    ∀ x ∈ ls.map ProgressLine.display, d ≤ x

theorem regenToken_id (g : Nat → Nat) (t : Ticket) :
    (regenToken g t).id = t.id := rfl

theorem bulk_update_idsOf (store chunk : List Ticket) :
    idsOf (bulk_update store chunk) = idsOf store := by
  unfold bulk_update idsOf
  rw [List.map_map]
  apply List.map_congr_left
  intro t _
  simp only [Function.comp_apply]
  cases chunk.find? (fun c => c.id == t.id) <;> rfl

theorem bulk_update_length (store chunk : List Ticket) :
    (bulk_update store chunk).length = store.length := by
  unfold bulk_update
  exact List.length_map _ _

theorem idsOf_length (l : List Ticket) : (idsOf l).length = l.length :=
  List.length_map _ _

theorem idsOf_eq_length {s t : List Ticket} (h : idsOf s = idsOf t) :
    s.length = t.length := by
  have h2 := congrArg List.length h
  rwa [idsOf_length, idsOf_length] at h2

theorem idsOf_append (s t : List Ticket) :
    idsOf (s ++ t) = idsOf s ++ idsOf t := by
  unfold idsOf
  exact List.map_append _ _ _

theorem idsOf_map_regenToken (g : Nat → Nat) (l : List Ticket) :
    idsOf (l.map (regenToken g)) = idsOf l := by
  unfold idsOf
  rw [List.map_map]
  apply List.map_congr_left
  intro t _
  rfl

theorem updateDisplay_le (d e : ℚ) : updateDisplay d e ≤ d := by
  unfold updateDisplay
  split
  · exact le_of_lt (by assumption)
  · exact le_refl d

theorem dispInv_nil (d : ℚ) : DispInv d [] := by
  constructor
  · simp
  · simp

theorem dispInv_push (d : ℚ) (ln : ProgressLine) (ls : List ProgressLine)
    (h : DispInv d ls) (he : ln.display ≤ d) :
    DispInv ln.display (ls ++ [ln]) := by
  obtain ⟨hchain, hbound⟩ := h
  constructor
  · rw [List.map_append]
    rw [List.chain'_append]
    refine ⟨hchain, ?_, ?_⟩
    · simp
    · intro x hx y hy
      simp only [List.map_cons, List.map_nil, List.head?_cons,
        Option.mem_def, Option.some.injEq] at hy
      subst hy
      have hmem : x ∈ ls.map ProgressLine.display := by
        obtain ⟨hne, hxl⟩ := List.mem_getLast?_eq_getLast hx
        subst hxl
        exact List.getLast_mem hne
      exact le_trans he (hbound x hmem)
  · intro x hx
    rw [List.map_append] at hx
    rcases List.mem_append.mp hx with hx1 | hx2
    · exact le_trans he (hbound x hx1)
    · simp only [List.map_cons, List.map_nil, List.mem_singleton] at hx2
      subst hx2
      exact le_refl _

theorem v3Step_display (W tp : Nat) (g : Nat → Nat) (e : Nat → ℚ)
    (st : V3Loop) (i : Nat) :
    (v3Step W tp g e st i).display = updateDisplay st.display (estimateV3 tp i (e i)) := rfl

theorem v3Step_progress (W tp : Nat) (g : Nat → Nat) (e : Nat → ℚ)
    (st : V3Loop) (i : Nat) :
    (v3Step W tp g e st i).progress = st.progress ++
      [⟨(i : ℚ) / (tp : ℚ) * 100, estimateV3 tp i (e i),
        updateDisplay st.display (estimateV3 tp i (e i))⟩] := rfl

theorem v3Step_dispInv (W tp : Nat) (g : Nat → Nat) (e : Nat → ℚ)
    (st : V3Loop) (i : Nat) (h : DispInv st.display st.progress) :
    DispInv (v3Step W tp g e st i).display (v3Step W tp g e st i).progress := by
  rw [v3Step_display, v3Step_progress]
  exact dispInv_push st.display _ st.progress h (updateDisplay_le _ _)

theorem v3Loop_dispInv (W tp : Nat) (g : Nat → Nat) (e : Nat → ℚ)
    (fault : Option (Int × String)) :
    ∀ (pages : List Int) (st : V3Loop), DispInv st.display st.progress →
      DispInv ((v3Loop W tp g e fault pages st).1).display
        ((v3Loop W tp g e fault pages st).1).progress := by
  intro pages
  induction pages with
  | nil => intro st h; exact h
  | cons i rest ih =>
    intro st h
    cases fault with
    | none =>
      rw [v3Loop]
      by_cases hlt : i < 1
      · simp only [if_pos hlt]
        exact h
      · simp only [if_neg hlt]
        exact ih _ (v3Step_dispInv W tp g e st i.toNat h)
    | some f =>
      rw [v3Loop]
      by_cases hlt : i < 1
      · simp only [if_pos hlt]
        exact h
      · simp only [if_neg hlt]
        by_cases hf : f.1 = i
        · simp only [if_pos hf]
          exact h
        · simp only [if_neg hf]
          exact ih _ (v3Step_dispInv W tp g e st i.toNat h)

theorem v3Loop_idsOf (W tp : Nat) (g : Nat → Nat) (e : Nat → ℚ)
    (fault : Option (Int × String)) :
    ∀ (pages : List Int) (st : V3Loop),
      idsOf ((v3Loop W tp g e fault pages st).1).store = idsOf st.store := by
  intro pages
  induction pages with
  | nil => intro st; rfl
  | cons i rest ih =>
    intro st
    cases fault with
    | none =>
      rw [v3Loop]
      by_cases hlt : i < 1
      · simp only [if_pos hlt]
      · simp only [if_neg hlt]
        rw [ih]
        exact bulk_update_idsOf _ _
    | some f =>
      rw [v3Loop]
      by_cases hlt : i < 1
      · simp only [if_pos hlt]
      · simp only [if_neg hlt]
        by_cases hf : f.1 = i
        · simp only [if_pos hf]
        · simp only [if_neg hf]
          rw [ih]
          exact bulk_update_idsOf _ _

theorem pageObjects_idsOf (store : List Ticket) (W i : Nat) :
    idsOf (pageObjects store W i) = idSlice (idsOf store) W i := by
  unfold pageObjects idSlice idsOf
  rw [List.map_take, List.map_drop]

theorem v3Loop_noFault (W tp : Nat) (g : Nat → Nat) (e : Nat → ℚ) :
    ∀ (ps : List Nat), (∀ p ∈ ps, 1 ≤ p) → ∀ (st : V3Loop),
      (v3Loop W tp g e none (ps.map (fun n : Nat => (n : Int))) st).2 = none ∧
      windowIds ((v3Loop W tp g e none (ps.map (fun n : Nat => (n : Int))) st).1).windows
        = windowIds st.windows ++ ps.map (fun i => idSlice (idsOf st.store) W i) := by
  intro ps
  induction ps with
  | nil =>
    intro _ st
    refine ⟨?_, ?_⟩ <;> simp [v3Loop]
  | cons i rest ih =>
    intro hge st
    have hi : 1 ≤ i := hge i (List.mem_cons_self i rest)
    have hlt : ¬ ((i : Int) < 1) := by omega
    rw [List.map_cons, v3Loop]
    simp only [if_neg hlt]
    have htn : ((i : Int)).toNat = i := by omega
    rw [htn]
    obtain ⟨ih1, ih2⟩ := ih (fun p hp => hge p (List.mem_cons_of_mem i hp))
      (v3Step W tp g e st i)
    refine ⟨ih1, ?_⟩
    rw [ih2]
    have hw : (v3Step W tp g e st i).windows
        = st.windows ++ [pageObjects st.store W i] := rfl
    have hs : idsOf (v3Step W tp g e st i).store = idsOf st.store := by
      have h2 : (v3Step W tp g e st i).store
          = bulk_update st.store ((pageObjects st.store W i).map (regenToken g)) := rfl
      rw [h2, bulk_update_idsOf]
    simp only [hw, hs, windowIds, List.map_append, List.map_cons, List.map_nil,
      List.append_assoc, List.singleton_append, pageObjects_idsOf]

theorem v3Loop_fault (W tp : Nat) (g : Nat → Nat) (e : Nat → ℚ)
    (p : Int) (msg : String) :
    ∀ (pages : List Int) (st : V3Loop), (∀ i ∈ pages, 1 ≤ i) → p ∈ pages →
      (v3Loop W tp g e (some (p, msg)) pages st).2 = some (p, msg) := by
  intro pages
  induction pages with
  | nil =>
    intro st _ hmem
    exact absurd hmem (List.not_mem_nil p)
  | cons i rest ih =>
    intro st hge hmem
    have hi : (1 : Int) ≤ i := hge i (List.mem_cons_self i rest)
    have hlt : ¬ (i < 1) := by omega
    rw [v3Loop]
    simp only [if_neg hlt]
    by_cases hp : p = i
    · have hc : (p, msg).1 = i := hp
      rw [if_pos hc]
    · have hc : ¬ ((p, msg).1 = i) := hp
      rw [if_neg hc]
      have hmem2 : p ∈ rest := by
        rcases List.mem_cons.mp hmem with h1 | h2
        · exact absurd h1 hp
        · exact h2
      exact ih _ (fun j hj => hge j (List.mem_cons_of_mem i hj)) hmem2

theorem intRange_eq_nil {a b : Int} (h : b ≤ a) : intRange a b = [] := by
  unfold intRange
  rw [Int.toNat_of_nonpos (by omega)]
  rfl

theorem intRange_mem {a b p : Int} : p ∈ intRange a b ↔ a ≤ p ∧ p < b := by
  unfold intRange
  simp only [List.mem_map, List.mem_range]
  constructor
  · rintro ⟨k, hk, rfl⟩
    omega
  · intro ⟨h1, h2⟩
    exact ⟨(p - a).toNat, by omega, by omega⟩

theorem intRange_one (m : Nat) :
    intRange 1 ((m : Int) + 1) = (List.range' 1 m).map (fun n : Nat => (n : Int)) := by
  unfold intRange
  have h1 : ((m : Int) + 1 - 1).toNat = m := by omega
  rw [h1, List.range'_eq_map_range, List.map_map]
  apply List.map_congr_left
  intro k _
  simp only [Function.comp_apply]
  omega

theorem chunksOf_nil {α : Type} (w : Nat) : chunksOf w ([] : List α) = [] := by
  rw [chunksOf]
  simp

theorem chunksOf_eq_cons {α : Type} (w : Nat) (l : List α) (hw : 0 < w)
    (hl : l ≠ []) :
    chunksOf w l = l.take w :: chunksOf w (l.drop w) := by
  have h : ¬ (l.length = 0 ∨ w = 0) := by
    rw [List.length_eq_zero]
    push_neg
    exact ⟨hl, by omega⟩
  rw [chunksOf, dif_neg h]

theorem chunksOf_flatten_aux {α : Type} (w : Nat) (hw : 0 < w) :
    ∀ (n : Nat) (l : List α), l.length ≤ n → (chunksOf w l).flatten = l := by
  intro n
  induction n with
  | zero =>
    intro l hl
    have hnil : l = [] := by
      cases l with
      | nil => rfl
      | cons a as => simp at hl
    subst hnil
    rw [chunksOf_nil]
    rfl
  | succ n ih =>
    intro l hl
    by_cases hnil : l = []
    · subst hnil
      rw [chunksOf_nil]
      rfl
    · rw [chunksOf_eq_cons w l hw hnil, List.flatten_cons]
      rw [ih (l.drop w) ?_]
      · exact List.take_append_drop w l
      · have h0 : 0 < l.length := List.length_pos.mpr hnil
        rw [List.length_drop]
        omega

theorem chunksOf_flatten {α : Type} (w : Nat) (hw : 0 < w) (l : List α) :
    (chunksOf w l).flatten = l :=
  chunksOf_flatten_aux w hw l.length l (le_refl _)

theorem ceilDiv_zero_left (w : Nat) (hw : 0 < w) : ceilDiv 0 w = 0 := by
  unfold ceilDiv
  exact Nat.div_eq_of_lt (by omega)

theorem ceilDiv_pos_step (n w : Nat) (hw : 0 < w) (hn : 0 < n) :
    ceilDiv n w = ceilDiv (n - w) w + 1 := by
  unfold ceilDiv
  by_cases h : n ≤ w
  · have h1 : n - w = 0 := by omega
    rw [h1]
    have h2 : (0 + w - 1) / w = 0 := Nat.div_eq_of_lt (by omega)
    rw [h2]
    rw [show n + w - 1 = (n - 1) + w from by omega, Nat.add_div_right _ hw]
    have h3 : (n - 1) / w = 0 := Nat.div_eq_of_lt (by omega)
    omega
  · push_neg at h
    rw [show n + w - 1 = (n - 1) + w from by omega, Nat.add_div_right _ hw]
    rw [show n - w + w - 1 = (n - w - 1) + w from by omega,
      Nat.add_div_right _ hw]
    rw [show n - 1 = (n - w - 1) + w from by omega, Nat.add_div_right _ hw]

theorem chunksOf_length_aux {α : Type} (w : Nat) (hw : 0 < w) :
    ∀ (n : Nat) (l : List α), l.length ≤ n →
      (chunksOf w l).length = ceilDiv l.length w := by
  intro n
  induction n with
  | zero =>
    intro l hl
    have hnil : l = [] := by
      cases l with
      | nil => rfl
      | cons a as => simp at hl
    subst hnil
    rw [chunksOf_nil]
    simp [ceilDiv_zero_left w hw]
  | succ n ih =>
    intro l hl
    by_cases hnil : l = []
    · subst hnil
      rw [chunksOf_nil]
      simp [ceilDiv_zero_left w hw]
    · have h0 : 0 < l.length := List.length_pos.mpr hnil
      rw [chunksOf_eq_cons w l hw hnil, List.length_cons]
      rw [ih (l.drop w) ?_]
      · rw [List.length_drop]
        rw [ceilDiv_pos_step l.length w hw h0]
      · rw [List.length_drop]
        omega

theorem chunksOf_length {α : Type} (w : Nat) (hw : 0 < w) (l : List α) :
    (chunksOf w l).length = ceilDiv l.length w :=
  chunksOf_length_aux w hw l.length l (le_refl _)

theorem le_numPages_mul (N W : Nat) (hw : 0 < W) : N ≤ numPages N W * W := by
  unfold numPages
  by_cases h : N = 0
  · simp [h]
  · rw [if_neg h]
    have hd := Nat.div_add_mod (N + W - 1) W
    have hm : (N + W - 1) % W < W := Nat.mod_lt _ hw
    have hcomm : (N + W - 1) / W * W = W * ((N + W - 1) / W) :=
      Nat.mul_comm _ _
    set x := W * ((N + W - 1) / W) with hx
    rw [hcomm]
    omega

theorem numPages_pos_eq (N W : Nat) (hn : N ≠ 0) :
    numPages N W = ceilDiv N W := by
  unfold numPages ceilDiv
  rw [if_neg hn]

theorem flatten_idSlice (l : List Nat) (W : Nat) :
    ∀ (m a : Nat), 1 ≤ a →
      ((List.range' a m).map (fun i => idSlice l W i)).flatten
        = (l.drop ((a - 1) * W)).take (m * W) := by
  intro m
  induction m with
  | zero =>
    intro a ha
    simp
  | succ m ih =>
    intro a ha
    rw [List.range'_succ, List.map_cons, List.flatten_cons, ih (a + 1) (by omega)]
    unfold idSlice
    obtain ⟨b, rfl⟩ : ∃ b, a = b + 1 := ⟨a - 1, by omega⟩
    simp only [Nat.add_sub_cancel]
    rw [show (m + 1) * W = W + m * W from by ring]
    rw [List.take_add]
    congr 1
    rw [List.drop_drop]
    rw [show b * W + W = (b + 1) * W from by ring]

theorem regenV2Go_windows (cs total : Nat) (g : Nat → Nat) (e : Nat → ℚ)
    (hcs : 0 < cs) :
    ∀ (rest : List Ticket) (i : Nat) (st : V2Loop),
      st.chunk.length = i % cs →
      (regenV2Go cs total g e rest i st).windows
        = st.windows ++ chunksOf cs (st.chunk ++ rest.map (regenToken g)) := by
  intro rest
  induction rest with
  | nil =>
    intro i st hlen
    rw [regenV2Go]
    by_cases hc : st.chunk = []
    · rw [if_pos hc, hc]
      simp [chunksOf_nil]
    · rw [if_neg hc]
      have hlt : st.chunk.length < cs := by
        rw [hlen]
        exact Nat.mod_lt _ hcs
      simp only [List.map_nil, List.append_nil]
      rw [chunksOf_eq_cons cs st.chunk hcs hc]
      rw [List.take_of_length_le (le_of_lt hlt),
        List.drop_eq_nil_of_le (le_of_lt hlt), chunksOf_nil]
  | cons t rest ih =>
    intro i st hlen
    have hml : st.chunk.length < cs := by
      rw [hlen]
      exact Nat.mod_lt _ hcs
    have hmod : (i + 1) % cs = (st.chunk.length + 1) % cs := by
      rw [hlen, Nat.mod_add_mod]
    rw [regenV2Go]
    by_cases hflush : (i + 1) % cs = 0
    · rw [if_pos hflush]
      have hfull : st.chunk.length + 1 = cs := by
        rcases Nat.lt_or_ge (st.chunk.length + 1) cs with h2 | h2
        · rw [hmod, Nat.mod_eq_of_lt h2] at hflush
          omega
        · omega
      rw [ih (i + 1) _ (by simp [hflush.symm])]
      have hc1 : (st.chunk ++ [regenToken g t]).length = cs := by
        rw [List.length_append]
        simpa using hfull
      have hsplit : chunksOf cs (st.chunk ++ List.map (regenToken g) (t :: rest))
          = (st.chunk ++ [regenToken g t])
            :: chunksOf cs (rest.map (regenToken g)) := by
        rw [List.map_cons]
        rw [show st.chunk ++ regenToken g t :: rest.map (regenToken g)
            = (st.chunk ++ [regenToken g t]) ++ rest.map (regenToken g) from by
          simp]
        rw [chunksOf_eq_cons cs _ hcs (by
          intro hcon
          have := congrArg List.length hcon
          rw [List.length_append, hc1] at this
          simp at this
          omega)]
        rw [← hc1, List.take_left, List.drop_left]
      rw [hsplit]
      simp
    · rw [if_neg hflush]
      have hlt2 : st.chunk.length + 1 < cs := by
        rcases Nat.lt_or_ge (st.chunk.length + 1) cs with h2 | h2
        · exact h2
        · have h3 : st.chunk.length + 1 = cs := by omega
          rw [hmod, h3, Nat.mod_self] at hflush
          exact absurd rfl hflush
      have hpre : (st.chunk ++ [regenToken g t]).length = (i + 1) % cs := by
        rw [List.length_append, hmod, Nat.mod_eq_of_lt hlt2]
        simp
      rw [ih (i + 1) _ hpre]
      simp

theorem regenV2Go_idsOf (cs total : Nat) (g : Nat → Nat) (e : Nat → ℚ) :
    ∀ (rest : List Ticket) (i : Nat) (st : V2Loop),
      idsOf (regenV2Go cs total g e rest i st).store = idsOf st.store := by
  intro rest
  induction rest with
  | nil =>
    intro i st
    rw [regenV2Go]
    by_cases hc : st.chunk = []
    · rw [if_pos hc]
    · rw [if_neg hc]
      exact bulk_update_idsOf _ _
  | cons t rest ih =>
    intro i st
    rw [regenV2Go]
    by_cases hflush : (i + 1) % cs = 0
    · rw [if_pos hflush, ih]
      exact bulk_update_idsOf _ _
    · rw [if_neg hflush, ih]

theorem regenV2Go_dispInv (cs total : Nat) (g : Nat → Nat) (e : Nat → ℚ) :
    ∀ (rest : List Ticket) (i : Nat) (st : V2Loop),
      DispInv st.display st.progress →
      DispInv (regenV2Go cs total g e rest i st).display
        (regenV2Go cs total g e rest i st).progress := by
  intro rest
  induction rest with
  | nil =>
    intro i st h
    rw [regenV2Go]
    by_cases hc : st.chunk = []
    · rw [if_pos hc]
      exact h
    · rw [if_neg hc]
      exact h
  | cons t rest ih =>
    intro i st h
    rw [regenV2Go]
    by_cases hflush : (i + 1) % cs = 0
    · rw [if_pos hflush]
      refine ih (i + 1) _ ?_
      exact dispInv_push st.display _ st.progress h (updateDisplay_le _ _)
    · rw [if_neg hflush]
      exact ih (i + 1) _ h

theorem insChunk_length (g : Nat → Nat) (base round size : Nat) :
    (insChunk g base round size).length = size := by
  unfold insChunk
  rw [List.length_map, List.length_range]

theorem insLoopGo_length (sp ck : Nat) (g : Nat → Nat) (e : Nat → ℚ) :
    ∀ (l : List Nat) (st : InsLoop),
      (insLoopGo sp ck g e l st).store.length = st.store.length + ck * l.length := by
  intro l
  induction l with
  | nil =>
    intro st
    simp [insLoopGo]
  | cons i rest ih =>
    intro st
    rw [insLoopGo, ih]
    simp only [List.length_append, insChunk_length, List.length_cons]
    ring

theorem insLoopGo_dispInv (sp ck : Nat) (g : Nat → Nat) (e : Nat → ℚ) :
    ∀ (l : List Nat) (st : InsLoop),
      DispInv st.display st.progress →
      DispInv (insLoopGo sp ck g e l st).display
        (insLoopGo sp ck g e l st).progress := by
  intro l
  induction l with
  | nil =>
    intro st h
    exact h
  | cons i rest ih =>
    intro st h
    rw [insLoopGo]
    refine ih _ ?_
    exact dispInv_push st.display _ st.progress h (updateDisplay_le _ _)

theorem finishV3_startPage (sp : Int) (fs1 : CkptFile)
    (out : V3Loop × Option (Int × String)) :
    (finishV3 sp fs1 out).startPage = sp := by
  rcases out with ⟨st, o⟩
  cases o <;> rfl

theorem finishV3_store (sp : Int) (fs1 : CkptFile)
    (out : V3Loop × Option (Int × String)) :
    (finishV3 sp fs1 out).store = out.1.store := by
  rcases out with ⟨st, o⟩
  cases o <;> rfl

theorem finishV3_windows (sp : Int) (fs1 : CkptFile)
    (out : V3Loop × Option (Int × String)) :
    (finishV3 sp fs1 out).windows = out.1.windows := by
  rcases out with ⟨st, o⟩
  cases o <;> rfl

theorem finishV3_progress (sp : Int) (fs1 : CkptFile)
    (out : V3Loop × Option (Int × String)) :
    (finishV3 sp fs1 out).progress = out.1.progress := by
  rcases out with ⟨st, o⟩
  cases o <;> rfl

theorem regenerate_tokens_v3_eq (W : Nat) (store : List Ticket) (fs : CkptFile)
    (g : Nat → Nat) (e : Nat → ℚ) (fault : Option (Int × String)) :
    regenerate_tokens_v3 W store fs g e fault
      = finishV3 (loadCheckpoint fs).1 (loadCheckpoint fs).2
          (v3Loop W (numPages store.length W) g e fault
            (intRange (loadCheckpoint fs).1 ((numPages store.length W : Int) + 1))
            ⟨store, 999999, [], []⟩) := rfl

theorem regenerate_tokens_v2_eq (cs : Nat) (store : List Ticket)
    (g : Nat → Nat) (e : Nat → ℚ) :
    regenerate_tokens_v2 cs store g e
      = ⟨(regenV2Go cs store.length g e store 0 ⟨store, 999999, [], [], []⟩).store,
         (regenV2Go cs store.length g e store 0 ⟨store, 999999, [], [], []⟩).windows,
         (regenV2Go cs store.length g e store 0 ⟨store, 999999, [], [], []⟩).progress⟩ := rfl

theorem insert_tickets_v2_eq (store : List Ticket) (g : Nat → Nat)
    (e : Nat → ℚ) :
    insert_tickets_v2 store g e
      = insLoopGo 1000 1000 g e (List.range 1000) ⟨store, 999999, []⟩ := rfl

theorem handle_r3_eq (W : Nat) (store : List Ticket) (fs : CkptFile)
    (g : Nat → Nat) (e : Nat → ℚ) (fault : Option (Int × String)) :
    handle_r3 W store fs g e fault
      = (0, some (regenerate_tokens_v3 W store fs g e fault)) := rfl

theorem pyInt?_empty : pyInt? "" = none := rfl

theorem loadedCheckpoint_after_load (fs : CkptFile) :
    loadedCheckpoint (loadCheckpoint fs).2 = none := by
  cases fs with
  | none => rfl
  | some s =>
    cases hp : pyInt? s with
    | none => simp [loadCheckpoint, loadedCheckpoint, hp]
    | some n => simp [loadCheckpoint, loadedCheckpoint, hp, pyInt?_empty]

theorem v3_run_interrupted (W : Nat) (store : List Ticket) (fs : CkptFile)
    (g : Nat → Nat) (e : Nat → ℚ) (p : Int) (msg : String)
    (h1 : 1 ≤ (loadCheckpoint fs).1) (h2 : (loadCheckpoint fs).1 ≤ p)
    (h3 : p ≤ (numPages store.length W : Int)) :
    (regenerate_tokens_v3 W store fs g e (some (p, msg))).file
      = some (toString p) ∧
    (regenerate_tokens_v3 W store fs g e (some (p, msg))).outcome
      = .interrupted ∧
    (regenerate_tokens_v3 W store fs g e (some (p, msg))).errorMsg = some msg := by
  rw [regenerate_tokens_v3_eq]
  have hmem : p ∈ intRange (loadCheckpoint fs).1
      ((numPages store.length W : Int) + 1) :=
    intRange_mem.mpr ⟨h2, by omega⟩
  have hge : ∀ i ∈ intRange (loadCheckpoint fs).1
      ((numPages store.length W : Int) + 1), 1 ≤ i := by
    intro i hi
    have hb := intRange_mem.mp hi
    omega
  have hsnd := v3Loop_fault W (numPages store.length W) g e p msg
    (intRange (loadCheckpoint fs).1 ((numPages store.length W : Int) + 1))
    ⟨store, 999999, [], []⟩ hge hmem
  rcases hv : v3Loop W (numPages store.length W) g e (some (p, msg))
      (intRange (loadCheckpoint fs).1 ((numPages store.length W : Int) + 1))
      ⟨store, 999999, [], []⟩ with ⟨st, o⟩
  rw [hv] at hsnd
  simp only at hsnd
  rw [hsnd]
  exact ⟨rfl, rfl, rfl⟩

theorem v3_run_windowIds (W : Nat) (store : List Ticket) (g : Nat → Nat)
    (e : Nat → ℚ) :
    windowIds (regenerate_tokens_v3 W store none g e none).windows
      = (List.range' 1 (numPages store.length W)).map
          (fun i => idSlice (idsOf store) W i) := by
  rw [regenerate_tokens_v3_eq]
  rw [finishV3_windows]
  simp only [loadCheckpoint]
  rw [intRange_one (numPages store.length W)]
  have hge : ∀ p ∈ List.range' 1 (numPages store.length W), 1 ≤ p := by
    intro p hp
    exact (List.mem_range'_1.mp hp).1
  obtain ⟨h1, h2⟩ := v3Loop_noFault W (numPages store.length W) g e
    (List.range' 1 (numPages store.length W)) hge ⟨store, 999999, [], []⟩
  rw [h2]
  simp [windowIds]

theorem finishV3_outcome_indep (sp sp2 : Int) (fs1 fs2 : CkptFile)
    (out : V3Loop × Option (Int × String)) :
    (finishV3 sp fs1 out).outcome = (finishV3 sp2 fs2 out).outcome := by
  rcases out with ⟨st, o⟩
  cases o <;> rfl

theorem finishV3_errorMsg_indep (sp sp2 : Int) (fs1 fs2 : CkptFile)
    (out : V3Loop × Option (Int × String)) :
    (finishV3 sp fs1 out).errorMsg = (finishV3 sp2 fs2 out).errorMsg := by
  rcases out with ⟨st, o⟩
  cases o <;> rfl

theorem windowIds_flatten (ws : List (List Ticket)) :
    (windowIds ws).flatten = idsOf ws.flatten := by
  unfold windowIds idsOf
  rw [← List.map_flatten]

theorem windows_size_sum (ws : List (List Ticket)) :
    (ws.map List.length).sum = (windowIds ws).flatten.length := by
  rw [List.length_flatten]
  unfold windowIds
  rw [List.map_map]
  congr 1
  apply List.map_congr_left
  intro w _
  exact (idsOf_length w).symm

/-- C1 counterexample: a run of the paginated strategy interrupted by an
exception (here message boom while processing page 1) surfaces the error
and records an Interrupted outcome, yet the process exit status is 0, not
the non-zero status the claim asserts: the except clause of
regenerate_tokens_v3 swallows the exception, so handle returns normally. -/
theorem C1_counterexample_exit_zero :
    (handle_r3 1 [⟨1, 0⟩] none (fun n => n) (fun _ => 1) (some (1, "boom"))).1
      = 0 ∧
    ((handle_r3 1 [⟨1, 0⟩] none (fun n => n) (fun _ => 1)
        (some (1, "boom"))).2.map V3Result.outcome)
      = some RunOutcome.interrupted ∧
    ((handle_r3 1 [⟨1, 0⟩] none (fun n => n) (fun _ => 1)
        (some (1, "boom"))).2.map V3Result.errorMsg) = some (some "boom") := by
  refine ⟨rfl, ?_, ?_⟩ <;> decide

/-- C1 (amended): for every run of regenerate_tokens_v3 in which an
exception or operator interrupt occurs during the window loop, the error
message is surfaced to the operator and the checkpoint is written, but
the exception is caught inside the strategy, the strategy returns
normally to handle, and the process exits with status 0 (not non-zero). -/
theorem C1_amended_interrupt_swallowed (W : Nat) (store : List Ticket)
    (fs : CkptFile) (g : Nat → Nat) (e : Nat → ℚ) (p : Int) (msg : String)
    (h1 : 1 ≤ (loadCheckpoint fs).1) (h2 : (loadCheckpoint fs).1 ≤ p)
    (h3 : p ≤ (numPages store.length W : Int)) :
    (handle_r3 W store fs g e (some (p, msg))).1 = 0 ∧
    (handle_r3 W store fs g e (some (p, msg))).2
      = some (regenerate_tokens_v3 W store fs g e (some (p, msg))) ∧
    (regenerate_tokens_v3 W store fs g e (some (p, msg))).outcome
      = RunOutcome.interrupted ∧
    (regenerate_tokens_v3 W store fs g e (some (p, msg))).errorMsg
      = some msg ∧
    (regenerate_tokens_v3 W store fs g e (some (p, msg))).file
      = some (toString p) := by
  obtain ⟨ha, hb, hc⟩ := v3_run_interrupted W store fs g e p msg h1 h2 h3
  exact ⟨rfl, rfl, hb, hc, ha⟩

/-- C1 amended witness: the amended theorem evaluated on the concrete
interrupted run with three pages of one record each, faulting at page 2. -/
theorem C1_amended_interrupt_swallowed_witness :
    (handle_r3 1 [⟨1, 5⟩, ⟨2, 6⟩, ⟨3, 7⟩] none (fun n => n) (fun _ => 1)
        (some (2, "disk error"))).1 = 0 ∧
    (handle_r3 1 [⟨1, 5⟩, ⟨2, 6⟩, ⟨3, 7⟩] none (fun n => n) (fun _ => 1)
        (some (2, "disk error"))).2
      = some (regenerate_tokens_v3 1 [⟨1, 5⟩, ⟨2, 6⟩, ⟨3, 7⟩] none
          (fun n => n) (fun _ => 1) (some (2, "disk error"))) ∧
    (regenerate_tokens_v3 1 [⟨1, 5⟩, ⟨2, 6⟩, ⟨3, 7⟩] none (fun n => n)
        (fun _ => 1) (some (2, "disk error"))).outcome
      = RunOutcome.interrupted ∧
    (regenerate_tokens_v3 1 [⟨1, 5⟩, ⟨2, 6⟩, ⟨3, 7⟩] none (fun n => n)
        (fun _ => 1) (some (2, "disk error"))).errorMsg = some "disk error" ∧
    (regenerate_tokens_v3 1 [⟨1, 5⟩, ⟨2, 6⟩, ⟨3, 7⟩] none (fun n => n)
        (fun _ => 1) (some (2, "disk error"))).file
      = some (toString (2 : Int)) :=
  C1_amended_interrupt_swallowed 1 [⟨1, 5⟩, ⟨2, 6⟩, ⟨3, 7⟩] none (fun n => n)
    (fun _ => 1) 2 "disk error" (by decide) (by decide) (by decide)

/-- C2 counterexample: with two pages of one record each and one second
of elapsed time per window, the raw estimate the paginated strategy
computes for the first completed window is 2, while the claim
(remaining windows times elapsed, that is (2 - 1) * 1) predicts 1. -/
theorem C2_counterexample_estimate :
    ((regenerate_tokens_v3 1 [⟨1, 0⟩, ⟨2, 0⟩] none (fun n => n) (fun _ => 1)
        none).progress.map ProgressLine.rawEst).head? = some 2 ∧
    (2 : ℚ) ≠ (((2 - 1 : Nat) : ℚ)) * 1 := by
  constructor
  · have h : ((regenerate_tokens_v3 1 [⟨1, 0⟩, ⟨2, 0⟩] none (fun n => n)
        (fun _ => 1) none).progress.map ProgressLine.rawEst).head?
        = some (estimateV3 2 1 1) := rfl
    rw [h]
    norm_num [estimateV3]
  · norm_num

/-- C2 (amended): the raw remaining-time estimate of every chunked
strategy counts the just-completed window as if it were still remaining.
With remaining the number of windows not yet processed after the
just-completed one, regenerate_tokens_v3 and insert_tickets_v2 compute
(remaining + 1) * elapsed rather than remaining * elapsed, and
regenerate_tokens_v2 computes ((remaining_records + 1) / chunk_size) *
elapsed where remaining_records counts the records after the flushed
chunk (its last record having 0-based index i). -/
theorem C2_amended_estimates :
    (∀ (tp i : Nat) (took : ℚ), i ≤ tp →
      estimateV3 tp i took = (((tp - i : Nat) : ℚ) + 1) * took) ∧
    (∀ (sp i : Nat) (took : ℚ), i < sp →
      estimateInsertV2 sp i took = (((sp - (i + 1) : Nat) : ℚ) + 1) * took) ∧
    (∀ (total i cs : Nat) (took : ℚ), i < total →
      estimateRegenV2 total i cs took
        = ((((total - (i + 1) : Nat) : ℚ) + 1) / (cs : ℚ)) * took) := by
  refine ⟨?_, ?_, ?_⟩
  · intro tp i took h
    unfold estimateV3
    rw [Nat.cast_sub h]
  · intro sp i took h
    unfold estimateInsertV2
    rw [Nat.cast_sub (by omega : i + 1 ≤ sp)]
    push_cast
    ring_nf
  · intro total i cs took h
    unfold estimateRegenV2
    rw [Nat.cast_sub (by omega : i + 1 ≤ total)]
    push_cast
    ring_nf

/-- C2 amended witness: the amended estimate identities evaluated at the
concrete windows (page 2 of 3 for the paginated strategy, round 0 of
1000 for the chunked insert, flush ending at record 999 of 2000 for the
cursor strategy), each with one second of elapsed time. -/
theorem C2_amended_estimates_witness :
    estimateV3 3 2 1 = (((3 - 2 : Nat) : ℚ) + 1) * 1 ∧
    estimateInsertV2 1000 0 1 = (((1000 - (0 + 1) : Nat) : ℚ) + 1) * 1 ∧
    estimateRegenV2 2000 999 1000 1
      = ((((2000 - (999 + 1) : Nat) : ℚ) + 1) / (1000 : ℚ)) * 1 :=
  ⟨C2_amended_estimates.1 3 2 1 (by decide),
   C2_amended_estimates.2.1 1000 0 1 (by decide),
   C2_amended_estimates.2.2 2000 999 1000 1 (by decide)⟩

/-- C3 counterexample: on an empty table (N = 0) with the window size
1000 that the source fixes, the paginated strategy traverses one (empty)
window, because django Paginator reports one page for an empty object
list, while the claim asks for exactly the ceiling of N / W = 0 windows. -/
theorem C3_counterexample_empty_store :
    (regenerate_tokens_v3 1000 [] none (fun n => n) (fun _ => 1)
        none).windows.length
      ≠ ceilDiv (List.length ([] : List Ticket)) 1000 ∧
    (regenerate_tokens_v3 1000 [] none (fun n => n) (fun _ => 1)
        none).windows.length = 1 := by
  refine ⟨?_, ?_⟩ <;> decide

/-- C3 (amended): for all window sizes W > 0, the cursor strategy
regenerate_tokens_v2 traverses exactly the ceiling of N / W windows,
while the paginated strategy regenerate_tokens_v3 traverses
numPages N W windows, which equals that ceiling whenever N is at least 1
but is one empty window when N = 0; in both strategies the window sizes
sum to N and the concatenation of the windows in order carries the full
ordered key sequence of the record set, so every record is updated
exactly once. -/
theorem C3_amended_chunk_partition (W : Nat) (store : List Ticket)
    (g : Nat → Nat) (e : Nat → ℚ) (hw : 0 < W) :
    (regenerate_tokens_v2 W store g e).windows.length
      = ceilDiv store.length W ∧
    ((regenerate_tokens_v2 W store g e).windows.map List.length).sum
      = store.length ∧
    (windowIds (regenerate_tokens_v2 W store g e).windows).flatten
      = idsOf store ∧
    (regenerate_tokens_v3 W store none g e none).windows.length
      = numPages store.length W ∧
    (store ≠ [] → (regenerate_tokens_v3 W store none g e none).windows.length
      = ceilDiv store.length W) ∧
    ((regenerate_tokens_v3 W store none g e none).windows.map List.length).sum
      = store.length ∧
    (windowIds (regenerate_tokens_v3 W store none g e none).windows).flatten
      = idsOf store := by
  have hv2w : (regenerate_tokens_v2 W store g e).windows
      = chunksOf W (store.map (regenToken g)) := by
    rw [regenerate_tokens_v2_eq]
    have h0 := regenV2Go_windows W store.length g e hw store 0
      ⟨store, 999999, [], [], []⟩ (by simp)
    simpa using h0
  have hlen2 : (store.map (regenToken g)).length = store.length :=
    List.length_map _ _
  have hflat2 : (windowIds (regenerate_tokens_v2 W store g e).windows).flatten
      = idsOf store := by
    rw [hv2w, windowIds_flatten, chunksOf_flatten W hw,
      idsOf_map_regenToken]
  have hv3ids := v3_run_windowIds W store g e
  have hlen3 : (regenerate_tokens_v3 W store none g e none).windows.length
      = numPages store.length W := by
    have h1 : (windowIds (regenerate_tokens_v3 W store none g e
        none).windows).length
        = (regenerate_tokens_v3 W store none g e none).windows.length :=
      List.length_map _ _
    rw [← h1, hv3ids, List.length_map, List.length_range']
  have hflat3 : (windowIds (regenerate_tokens_v3 W store none g e
      none).windows).flatten = idsOf store := by
    rw [hv3ids, flatten_idSlice (idsOf store) W (numPages store.length W) 1
      (le_refl 1)]
    simp only [Nat.sub_self, Nat.zero_mul, List.drop_zero]
    apply List.take_of_length_le
    rw [idsOf_length]
    exact le_numPages_mul store.length W hw
  refine ⟨?_, ?_, hflat2, hlen3, ?_, ?_, hflat3⟩
  · rw [hv2w, chunksOf_length W hw, hlen2]
  · rw [windows_size_sum, hflat2, idsOf_length]
  · intro hne
    rw [hlen3]
    exact numPages_pos_eq store.length W
      (fun h0 => hne (List.length_eq_zero.mp h0))
  · rw [windows_size_sum, hflat3, idsOf_length]

/-- C3 amended witness: the amended partition facts evaluated on a
concrete table of three records with window size two: the cursor and
paginated strategies both traverse two windows of sizes [2, 1] whose
keys concatenate to [1, 2, 3]. -/
theorem C3_amended_chunk_partition_witness :
    (regenerate_tokens_v2 2 [⟨1, 5⟩, ⟨2, 6⟩, ⟨3, 7⟩] (fun n => n + 100)
        (fun _ => 1)).windows.length
      = ceilDiv (List.length [(⟨1, 5⟩ : Ticket), ⟨2, 6⟩, ⟨3, 7⟩]) 2 ∧
    ((regenerate_tokens_v2 2 [⟨1, 5⟩, ⟨2, 6⟩, ⟨3, 7⟩] (fun n => n + 100)
        (fun _ => 1)).windows.map List.length).sum
      = List.length [(⟨1, 5⟩ : Ticket), ⟨2, 6⟩, ⟨3, 7⟩] ∧
    (windowIds (regenerate_tokens_v2 2 [⟨1, 5⟩, ⟨2, 6⟩, ⟨3, 7⟩]
        (fun n => n + 100) (fun _ => 1)).windows).flatten
      = idsOf [⟨1, 5⟩, ⟨2, 6⟩, ⟨3, 7⟩] ∧
    (regenerate_tokens_v3 2 [⟨1, 5⟩, ⟨2, 6⟩, ⟨3, 7⟩] none (fun n => n + 100)
        (fun _ => 1) none).windows.length
      = numPages (List.length [(⟨1, 5⟩ : Ticket), ⟨2, 6⟩, ⟨3, 7⟩]) 2 ∧
    ([(⟨1, 5⟩ : Ticket), ⟨2, 6⟩, ⟨3, 7⟩] ≠ [] →
      (regenerate_tokens_v3 2 [⟨1, 5⟩, ⟨2, 6⟩, ⟨3, 7⟩] none (fun n => n + 100)
        (fun _ => 1) none).windows.length
      = ceilDiv (List.length [(⟨1, 5⟩ : Ticket), ⟨2, 6⟩, ⟨3, 7⟩]) 2) ∧
    ((regenerate_tokens_v3 2 [⟨1, 5⟩, ⟨2, 6⟩, ⟨3, 7⟩] none (fun n => n + 100)
        (fun _ => 1) none).windows.map List.length).sum
      = List.length [(⟨1, 5⟩ : Ticket), ⟨2, 6⟩, ⟨3, 7⟩] ∧
    (windowIds (regenerate_tokens_v3 2 [⟨1, 5⟩, ⟨2, 6⟩, ⟨3, 7⟩] none
        (fun n => n + 100) (fun _ => 1) none).windows).flatten
      = idsOf [⟨1, 5⟩, ⟨2, 6⟩, ⟨3, 7⟩] :=
  C3_amended_chunk_partition 2 [⟨1, 5⟩, ⟨2, 6⟩, ⟨3, 7⟩] (fun n => n + 100)
    (fun _ => 1) (by decide)

attribute [irreducible] insLoopGo

/-- C4: within any single run of a chunked strategy
(regenerate_tokens_v3 with any checkpoint state and any fault point,
regenerate_tokens_v2, insert_tickets_v2), the displayed
display_remain_time values are non-increasing across successive
windows, for every sequence of per-window elapsed times, including
sequences that fluctuate upward mid-run. -/
theorem C4_display_monotone :
    (∀ (W : Nat) (store : List Ticket) (fs : CkptFile) (g : Nat → Nat)
        (e : Nat → ℚ) (fault : Option (Int × String)),
      List.Chain' (fun a b => b ≤ a)
        ((regenerate_tokens_v3 W store fs g e fault).progress.map
          ProgressLine.display)) ∧
    (∀ (W : Nat) (store : List Ticket) (g : Nat → Nat) (e : Nat → ℚ),
      List.Chain' (fun a b => b ≤ a)
        ((regenerate_tokens_v2 W store g e).progress.map
          ProgressLine.display)) ∧
    (∀ (store : List Ticket) (g : Nat → Nat) (e : Nat → ℚ),
      List.Chain' (fun a b => b ≤ a)
        ((insert_tickets_v2 store g e).progress.map ProgressLine.display)) := by
  refine ⟨?_, ?_, ?_⟩
  · intro W store fs g e fault
    rw [regenerate_tokens_v3_eq, finishV3_progress]
    exact (v3Loop_dispInv W (numPages store.length W) g e fault _ _
      (dispInv_nil 999999)).1
  · intro W store g e
    rw [regenerate_tokens_v2_eq]
    exact (regenV2Go_dispInv W store.length g e store 0
      ⟨store, 999999, [], [], []⟩ (dispInv_nil 999999)).1
  · intro store g e
    rw [insert_tickets_v2_eq]
    have h0 := insLoopGo_dispInv 1000 1000 g e (List.range 1000)
      (⟨store, 999999, []⟩ : InsLoop) (dispInv_nil 999999)
    rw [DispInv] at h0
    exact h0.1

/-- C5: every checkpoint file state that is absent, empty, or contains
text that does not parse as an integer is treated as absent by
regenerate_tokens_v3: the checkpoint-loading step returns current_page
= 1 without raising (loadCheckpoint is total and leaves the file as it
was), the run starts from the first window, and the whole run behaves
exactly like a run with no checkpoint file. -/
theorem C5_corrupt_checkpoint_as_absent (W : Nat) (store : List Ticket)
    (fs : CkptFile) (g : Nat → Nat) (e : Nat → ℚ)
    (fault : Option (Int × String))
    (h : ∀ s, fs = some s → pyInt? s = none) :
    loadCheckpoint fs = (1, fs) ∧
    (regenerate_tokens_v3 W store fs g e fault).startPage = 1 ∧
    (regenerate_tokens_v3 W store fs g e fault).windows
      = (regenerate_tokens_v3 W store none g e fault).windows ∧
    (regenerate_tokens_v3 W store fs g e fault).progress
      = (regenerate_tokens_v3 W store none g e fault).progress ∧
    (regenerate_tokens_v3 W store fs g e fault).store
      = (regenerate_tokens_v3 W store none g e fault).store ∧
    (regenerate_tokens_v3 W store fs g e fault).outcome
      = (regenerate_tokens_v3 W store none g e fault).outcome ∧
    (regenerate_tokens_v3 W store fs g e fault).errorMsg
      = (regenerate_tokens_v3 W store none g e fault).errorMsg := by
  have hlc : loadCheckpoint fs = (1, fs) := by
    cases fs with
    | none => rfl
    | some s =>
      have hp := h s rfl
      simp [loadCheckpoint, hp]
  have hfst : ((1 : Int), fs).1 = (1 : Int) := rfl
  have hnone : (loadCheckpoint none).1 = (1 : Int) := rfl
  refine ⟨hlc, ?_, ?_, ?_, ?_, ?_, ?_⟩
  · rw [regenerate_tokens_v3_eq, finishV3_startPage, hlc]
  · rw [regenerate_tokens_v3_eq W store fs g e fault,
      regenerate_tokens_v3_eq W store none g e fault,
      finishV3_windows, finishV3_windows, hlc, hfst, hnone]
  · rw [regenerate_tokens_v3_eq W store fs g e fault,
      regenerate_tokens_v3_eq W store none g e fault,
      finishV3_progress, finishV3_progress, hlc, hfst, hnone]
  · rw [regenerate_tokens_v3_eq W store fs g e fault,
      regenerate_tokens_v3_eq W store none g e fault,
      finishV3_store, finishV3_store, hlc, hfst, hnone]
  · rw [regenerate_tokens_v3_eq W store fs g e fault,
      regenerate_tokens_v3_eq W store none g e fault, hlc, hfst, hnone]
    exact finishV3_outcome_indep _ _ _ _ _
  · rw [regenerate_tokens_v3_eq W store fs g e fault,
      regenerate_tokens_v3_eq W store none g e fault, hlc, hfst, hnone]
    exact finishV3_errorMsg_indep _ _ _ _ _

/-- C5 witness: the theorem evaluated on the corrupt checkpoint file
containing abc, a table of one record, window size one and no fault. -/
theorem C5_corrupt_checkpoint_as_absent_witness :
    loadCheckpoint (some "abc") = (1, some "abc") ∧
    (regenerate_tokens_v3 1 [⟨1, 0⟩] (some "abc") (fun n => n) (fun _ => 1)
        none).startPage = 1 ∧
    (regenerate_tokens_v3 1 [⟨1, 0⟩] (some "abc") (fun n => n) (fun _ => 1)
        none).windows
      = (regenerate_tokens_v3 1 [⟨1, 0⟩] none (fun n => n) (fun _ => 1)
        none).windows ∧
    (regenerate_tokens_v3 1 [⟨1, 0⟩] (some "abc") (fun n => n) (fun _ => 1)
        none).progress
      = (regenerate_tokens_v3 1 [⟨1, 0⟩] none (fun n => n) (fun _ => 1)
        none).progress ∧
    (regenerate_tokens_v3 1 [⟨1, 0⟩] (some "abc") (fun n => n) (fun _ => 1)
        none).store
      = (regenerate_tokens_v3 1 [⟨1, 0⟩] none (fun n => n) (fun _ => 1)
        none).store ∧
    (regenerate_tokens_v3 1 [⟨1, 0⟩] (some "abc") (fun n => n) (fun _ => 1)
        none).outcome
      = (regenerate_tokens_v3 1 [⟨1, 0⟩] none (fun n => n) (fun _ => 1)
        none).outcome ∧
    (regenerate_tokens_v3 1 [⟨1, 0⟩] (some "abc") (fun n => n) (fun _ => 1)
        none).errorMsg
      = (regenerate_tokens_v3 1 [⟨1, 0⟩] none (fun n => n) (fun _ => 1)
        none).errorMsg :=
  C5_corrupt_checkpoint_as_absent 1 [⟨1, 0⟩] (some "abc") (fun n => n)
    (fun _ => 1) none (by intro s hs; cases hs; decide)

/-- C6: whenever the paginated strategy is interrupted by an exception
or cancellation while a page within the run range is being processed,
the value written to the checkpoint file is exactly the decimal string
of the 1-based index of that page (the window being processed, not the
last fully completed one), so a resume reprocesses that window. -/
theorem C6_checkpoint_saves_current_window (W : Nat) (store : List Ticket)
    (fs : CkptFile) (g : Nat → Nat) (e : Nat → ℚ) (p : Int) (msg : String)
    (h1 : 1 ≤ (loadCheckpoint fs).1) (h2 : (loadCheckpoint fs).1 ≤ p)
    (h3 : p ≤ (numPages store.length W : Int)) :
    (regenerate_tokens_v3 W store fs g e (some (p, msg))).file
      = some (toString p) ∧
    (regenerate_tokens_v3 W store fs g e (some (p, msg))).outcome
      = RunOutcome.interrupted := by
  obtain ⟨ha, hb, _⟩ := v3_run_interrupted W store fs g e p msg h1 h2 h3
  exact ⟨ha, hb⟩

/-- C6 witness: the theorem evaluated on a table of three records with
window size one, interrupted while page 2 is being processed: the file
receives the string 2. -/
theorem C6_checkpoint_saves_current_window_witness :
    (regenerate_tokens_v3 1 [⟨1, 5⟩, ⟨2, 6⟩, ⟨3, 7⟩] none (fun n => n)
        (fun _ => 1) (some (2, "disk error"))).file
      = some (toString (2 : Int)) ∧
    (regenerate_tokens_v3 1 [⟨1, 5⟩, ⟨2, 6⟩, ⟨3, 7⟩] none (fun n => n)
        (fun _ => 1) (some (2, "disk error"))).outcome
      = RunOutcome.interrupted :=
  C6_checkpoint_saves_current_window 1 [⟨1, 5⟩, ⟨2, 6⟩, ⟨3, 7⟩] none
    (fun n => n) (fun _ => 1) 2 "disk error" (by decide) (by decide) (by decide)

/-- C7: after any run of the paginated strategy that reaches Completed,
a checkpoint load on the resulting file state returns none; the file is
exactly what the consuming restart block left (absent stays absent, a
numeric checkpoint was emptied to the empty string when consumed, and
unparsable text stays behind but still loads as none); the window loop
itself never writes the file on clean completion. -/
theorem C7_checkpoint_cleared_on_completion (W : Nat) (store : List Ticket)
    (fs : CkptFile) (g : Nat → Nat) (e : Nat → ℚ)
    (fault : Option (Int × String))
    (h : (regenerate_tokens_v3 W store fs g e fault).outcome
      = RunOutcome.completed) :
    loadedCheckpoint (regenerate_tokens_v3 W store fs g e fault).file
      = none ∧
    (regenerate_tokens_v3 W store fs g e fault).file
      = (loadCheckpoint fs).2 := by
  rw [regenerate_tokens_v3_eq] at h ⊢
  rcases hv : v3Loop W (numPages store.length W) g e fault
      (intRange (loadCheckpoint fs).1 ((numPages store.length W : Int) + 1))
      ⟨store, 999999, [], []⟩ with ⟨st, o⟩
  rw [hv] at h
  cases o with
  | some f => exact absurd h (by simp [finishV3])
  | none => exact ⟨loadedCheckpoint_after_load fs, rfl⟩

/-- C7 witness: the theorem evaluated on a completed run that consumed
the numeric checkpoint 7 (beyond the single page of the table, so the
loop finishes immediately): the consumed checkpoint was emptied and a
subsequent load returns none. -/
theorem C7_checkpoint_cleared_on_completion_witness :
    loadedCheckpoint (regenerate_tokens_v3 1 [⟨1, 5⟩] (some "7")
        (fun n => n) (fun _ => 1) none).file = none ∧
    (regenerate_tokens_v3 1 [⟨1, 5⟩] (some "7") (fun n => n) (fun _ => 1)
        none).file = (loadCheckpoint (some "7")).2 :=
  C7_checkpoint_cleared_on_completion 1 [⟨1, 5⟩] (some "7") (fun n => n)
    (fun _ => 1) none (by decide)

/-- C8: for every starting window index strictly beyond the last page,
the paginated strategy iterates zero windows: it fetches no page,
updates no record, prints no progress line, and completes immediately. -/
theorem C8_start_beyond_last_window (W : Nat) (store : List Ticket)
    (fs : CkptFile) (g : Nat → Nat) (e : Nat → ℚ)
    (fault : Option (Int × String))
    (h : (numPages store.length W : Int) < (loadCheckpoint fs).1) :
    (regenerate_tokens_v3 W store fs g e fault).windows = [] ∧
    (regenerate_tokens_v3 W store fs g e fault).progress = [] ∧
    (regenerate_tokens_v3 W store fs g e fault).store = store ∧
    (regenerate_tokens_v3 W store fs g e fault).outcome
      = RunOutcome.completed := by
  rw [regenerate_tokens_v3_eq]
  have hnil : intRange (loadCheckpoint fs).1
      ((numPages store.length W : Int) + 1) = [] :=
    intRange_eq_nil (by omega)
  rw [hnil, v3Loop]
  exact ⟨rfl, rfl, rfl, rfl⟩

/-- C8 witness: the theorem evaluated on a one-page table with a stored
checkpoint of 5: the run touches nothing and completes at once. -/
theorem C8_start_beyond_last_window_witness :
    (regenerate_tokens_v3 1 [⟨1, 5⟩] (some "5") (fun n => n) (fun _ => 1)
        none).windows = [] ∧
    (regenerate_tokens_v3 1 [⟨1, 5⟩] (some "5") (fun n => n) (fun _ => 1)
        none).progress = [] ∧
    (regenerate_tokens_v3 1 [⟨1, 5⟩] (some "5") (fun n => n) (fun _ => 1)
        none).store = [⟨1, 5⟩] ∧
    (regenerate_tokens_v3 1 [⟨1, 5⟩] (some "5") (fun n => n) (fun _ => 1)
        none).outcome = RunOutcome.completed :=
  C8_start_beyond_last_window 1 [⟨1, 5⟩] (some "5") (fun n => n)
    (fun _ => 1) none (by decide)

/-- C9: every update strategy modifies only the token field: the ordered
key sequence of the table (hence the set of identifiers and the record
count) is the same after the run as before, for regenerate_tokens,
regenerate_tokens_v2 (any window size) and regenerate_tokens_v3 (any
window size, checkpoint state and fault point). -/
theorem C9_update_frame :
    ∀ (store : List Ticket) (g : Nat → Nat),
      idsOf (regenerate_tokens store g) = idsOf store ∧
      (regenerate_tokens store g).length = store.length ∧
      (∀ (W : Nat) (e : Nat → ℚ),
        idsOf (regenerate_tokens_v2 W store g e).store = idsOf store ∧
        (regenerate_tokens_v2 W store g e).store.length = store.length) ∧
      (∀ (W : Nat) (fs : CkptFile) (e : Nat → ℚ)
          (fault : Option (Int × String)),
        idsOf (regenerate_tokens_v3 W store fs g e fault).store
          = idsOf store ∧
        (regenerate_tokens_v3 W store fs g e fault).store.length
          = store.length) := by
  intro store g
  refine ⟨?_, ?_, ?_, ?_⟩
  · exact bulk_update_idsOf store (store.map (regenToken g))
  · exact bulk_update_length store (store.map (regenToken g))
  · intro W e
    have hids : idsOf (regenerate_tokens_v2 W store g e).store
        = idsOf store := by
      rw [regenerate_tokens_v2_eq]
      exact regenV2Go_idsOf W store.length g e store 0 ⟨store, 999999, [], [], []⟩
    exact ⟨hids, idsOf_eq_length hids⟩
  · intro W fs e fault
    have hids : idsOf (regenerate_tokens_v3 W store fs g e fault).store
        = idsOf store := by
      rw [regenerate_tokens_v3_eq, finishV3_store]
      exact v3Loop_idsOf W (numPages store.length W) g e fault _
        ⟨store, 999999, [], []⟩
    exact ⟨hids, idsOf_eq_length hids⟩

/-- C10: starting from an empty store, the naive insert strategy (one
bulk_create of 1000000 rows) and the chunked insert strategy (1000
rounds of 1000 rows) leave the same number of records in the store:
both insert exactly 1000000. -/
theorem C10_insert_refinement :
    ∀ (g g2 : Nat → Nat) (e : Nat → ℚ),
      (insert_tickets [] g).length = 1000000 ∧
      (insert_tickets_v2 [] g2 e).store.length = 1000000 ∧
      (insert_tickets [] g).length = (insert_tickets_v2 [] g2 e).store.length := by
  intro g g2 e
  have h1 : (insert_tickets [] g).length = 1000000 := by
    unfold insert_tickets
    rw [List.length_append, insChunk_length]
    rfl
  have h2 : (insert_tickets_v2 [] g2 e).store.length = 1000000 := by
    rw [insert_tickets_v2_eq, insLoopGo_length]
    simp
  exact ⟨h1, h2, by rw [h1, h2]⟩
